import Mathlib

/-!
Verification of the cluster lifecycle reconciliation core of the kkp
repository: a shallow embedding of the cluster deletion pipeline
(pkg/clusterdeletion/deletion.go), the Azure cloud provider operations
(pkg/provider/cloud/azure/provider.go), the cluster controller
(package kubernetes) and the addon controller (package addon), together
with theorems about the finalizer-ordering, cleanup and validation
properties of those functions.

Remote calls (cloud provider API, tenant cluster API, seed API reads)
are modelled as environment oracles: functions supplied as inputs whose
results drive the embedded control flow exactly as the corresponding Go
call results do.  Every embedded function additionally returns a trace
of the calls it performed, so that statements of the form "stage X is
not invoked in this pass" can be expressed.
-/

set_option maxHeartbeats 1000000

namespace KKP

/-- Go errors are surfaced as strings (the embedding only propagates and
wraps them, mirroring fmt.Errorf with %w). -/
abbrev GoError := String

/-- Result of a Kubernetes API read: the object, a not-found error, or
another error (mirrors apierrors.IsNotFound dispatch). -/
inductive KubeErr
  | notFound
  | other (msg : String)
deriving DecidableEq, Repr

/-- controller-runtime reconcile.Result; RequeueAfter is in seconds. -/
structure RResult where
  requeueAfter : Nat := 0
deriving DecidableEq, Repr

/-- kubermaticv1.AzureCloudSpec: the fields read by the Azure provider in
pkg/provider/cloud/azure/provider.go. -/
structure AzureCloudSpec where
  resourceGroup : String := ""
  vnetResourceGroup : String := ""
  vnetName : String := ""
  subnetName : String := ""
  routeTableName : String := ""
  securityGroup : String := ""
  availabilitySet : String := ""
  assignAvailabilitySet : Option Bool := none
  loadBalancerSKU : String := ""
deriving DecidableEq, Repr

/-- kubermaticv1.CloudSpec; only the Azure sub-spec is relevant here, and
it is optional (nil in Go) exactly as in the source. -/
structure CloudSpec where
  azure : Option AzureCloudSpec := none
deriving DecidableEq, Repr

/-- Cluster.Status: the status fields read or written by the embedded
controllers (namespace name, control-plane version, apiserver health,
error reason/message). -/
structure ClusterStatus where
  namespaceName : String := ""
  controlPlaneVersion : String := ""
  apiserverUp : Bool := false
  errorReason : Option String := none
  errorMessage : Option String := none
deriving DecidableEq, Repr

/-- kubermaticv1.Cluster: name, finalizer list, deletion timestamp, cloud
spec and status sub-object. -/
structure Cluster where
  name : String := ""
  finalizers : List String := []
  deletionTimestamp : Option Nat := none
  cloud : CloudSpec := {}
  status : ClusterStatus := {}
deriving DecidableEq, Repr

/-! ### Finalizer constants

The six Azure cleanup finalizer strings are taken verbatim from
pkg/provider/cloud/azure/provider.go.  The apiv1 finalizer constants are
referenced by pkg/clusterdeletion/deletion.go but their defining file is
not part of the sources; they are modelled from the spec as distinct
stable strings (only their distinctness matters to the theorems below). -/

def FinalizerSecurityGroup : String := "kubermatic.k8c.io/cleanup-azure-security-group"

def FinalizerRouteTable : String := "kubermatic.k8c.io/cleanup-azure-route-table"

def FinalizerSubnet : String := "kubermatic.k8c.io/cleanup-azure-subnet"

def FinalizerVNet : String := "kubermatic.k8c.io/cleanup-azure-vnet"

def FinalizerResourceGroup : String := "kubermatic.k8c.io/cleanup-azure-resource-group"

def FinalizerAvailabilitySet : String := "kubermatic.k8c.io/cleanup-azure-availability-set"

/-- Modelled from the spec: apiv1.InClusterLBCleanupFinalizer (the
defining apiv1 constants file is not among the sources). -/
def InClusterLBCleanupFinalizer : String := "kubermatic.io/cleanup-usercluster-lb"

/-- Modelled from the spec: apiv1.InClusterPVCleanupFinalizer. -/
def InClusterPVCleanupFinalizer : String := "kubermatic.io/cleanup-usercluster-pv"

/-- Modelled from the spec: apiv1.NodeDeletionFinalizer. -/
def NodeDeletionFinalizer : String := "kubermatic.io/delete-nodes"

/-- Modelled from the spec: apiv1.ClusterRoleBindingsCleanupFinalizer. -/
def ClusterRoleBindingsCleanupFinalizer : String := "kubermatic.io/cleanup-cluster-role-bindings"

/-- Modelled from the spec: apiv1.CredentialsSecretsCleanupFinalizer. -/
def CredentialsSecretsCleanupFinalizer : String := "kubermatic.io/cleanup-credentials-secrets"

/-! ### Finalizer helpers

The kuberneteshelper package (k8c.io/kubermatic/v2/pkg/kubernetes) is not
among the sources; its finalizer helpers are modelled from the spec,
which describes the finalizer list as an insertion-ordered set with
add/remove/has operations and the seed-API finalizer patch as an atomic
read-modify-write.  The patch itself is modelled as always succeeding. -/

/-- Modelled from the spec: kuberneteshelper.HasFinalizer. -/
def HasFinalizer (c : Cluster) (f : String) : Bool :=
  c.finalizers.contains f

/-- Modelled from the spec: kuberneteshelper.HasAnyFinalizer. -/
def HasAnyFinalizer (c : Cluster) (fs : List String) : Bool :=
  fs.any (HasFinalizer c)

/-- Modelled from the spec: kuberneteshelper.HasOnlyFinalizer — the given
finalizer is the sole finalizer remaining on the object. -/
def HasOnlyFinalizer (c : Cluster) (f : String) : Bool :=
  c.finalizers.contains f && c.finalizers.all (fun g => g == f)

/-- Modelled from the spec: kuberneteshelper.RemoveFinalizer on the
in-memory object. -/
def RemoveFinalizer (c : Cluster) (f : String) : Cluster :=
  { c with finalizers := c.finalizers.filter (fun g => g ≠ f) }

/-- Modelled from the spec: kuberneteshelper.TryRemoveFinalizer — remove
the given finalizers and persist via an atomic read-modify-write against
the seed API (the write is modelled as succeeding). -/
def TryRemoveFinalizer (c : Cluster) (fs : List String) : Cluster :=
  { c with finalizers := c.finalizers.filter (fun g => !fs.contains g) }

/-! ## Cluster deletion pipeline (pkg/clusterdeletion/deletion.go) -/

/-- The stages of Deletion.CleanupCluster, in source order. -/
inductive Stage
  | constraints
  | lbCleanup
  | pvCleanup
  | lbGoneCheck
  | etcdBackup
  | nodeCleanup
  | crbCleanup
  | credentials
deriving DecidableEq, Repr

/-- A trace event: a stage call together with the finalizer list of the
cluster at the moment the call happens. -/
abbrev Ev := Stage × List String

/-- Environment for the deletion pipeline: outcomes of the sub-cleanup
routines that live outside deletion.go (constraints, LBs, PVs, etcd
backup configs, nodes, credentials secrets).  Each takes the current
cluster and either fails or returns the (possibly updated) cluster; the
LB/PV cleanups additionally report whether they deleted some resource. -/
structure DeletionEnv where
  cleanupConstraints : Cluster → Except GoError Cluster
  cleanupLBs : Cluster → Except GoError (Cluster × Bool)
  cleanupVolumes : Cluster → Except GoError (Cluster × Bool)
  checkIfAllLoadbalancersAreGone : Cluster → Except GoError Bool
  cleanupEtcdBackupConfigs : Cluster → Except GoError Cluster
  cleanupNodes : Cluster → Except GoError Cluster
  cleanUpCredentialsSecrets : Cluster → Except GoError Cluster

/-- Deletion.cleanupInClusterResources (deletion.go lines 101-153):
delete LBs and PVs inside the user cluster, gated by the two in-cluster
cleanup finalizers; if anything was deleted this pass, return without
removing finalizers; otherwise check that all load balancers are gone
and only then remove both finalizers in a single TryRemoveFinalizer. -/
def cleanupInClusterResources (env : DeletionEnv) (c : Cluster) :
    List Ev × Except GoError Cluster :=
  let shouldDeleteLBs := HasFinalizer c InClusterLBCleanupFinalizer
  let shouldDeletePVs := HasFinalizer c InClusterPVCleanupFinalizer
  if !shouldDeleteLBs && !shouldDeletePVs then
    ([], .ok c)
  else
    let lbStep : List Ev × Except GoError (Cluster × Bool) :=
      if shouldDeleteLBs then
        ([(Stage.lbCleanup, c.finalizers)],
          match env.cleanupLBs c with
          | .error e => .error ("failed to cleanup LBs: " ++ e)
          | .ok r => .ok r)
      else ([], .ok (c, false))
    match lbStep with
    | (tr1, .error e) => (tr1, .error e)
    | (tr1, .ok (c1, deletedSomeLBs)) =>
      let pvStep : List Ev × Except GoError (Cluster × Bool) :=
        if shouldDeletePVs then
          (tr1 ++ [(Stage.pvCleanup, c1.finalizers)],
            match env.cleanupVolumes c1 with
            | .error e => .error ("failed to cleanup PVs: " ++ e)
            | .ok r => .ok r)
        else (tr1, .ok (c1, false))
      match pvStep with
      | (tr2, .error e) => (tr2, .error e)
      | (tr2, .ok (c2, deletedSomeVolumes)) =>
        let deletedSomeResource := deletedSomeLBs || deletedSomeVolumes
        if deletedSomeResource then
          (tr2, .ok c2)
        else
          match env.checkIfAllLoadbalancersAreGone c2 with
          | .error e =>
            (tr2 ++ [(Stage.lbGoneCheck, c2.finalizers)],
              .error ("failed to check if all Loadbalancers are gone: " ++ e))
          | .ok false => (tr2 ++ [(Stage.lbGoneCheck, c2.finalizers)], .ok c2)
          | .ok true =>
            (tr2 ++ [(Stage.lbGoneCheck, c2.finalizers)],
              .ok (TryRemoveFinalizer c2
                [InClusterLBCleanupFinalizer, InClusterPVCleanupFinalizer]))

/-- Deletion.cleanupClusterRoleBindings (deletion.go, second file):
deprecated stage that simply removes its finalizer. -/
def cleanupClusterRoleBindings (c : Cluster) : Cluster :=
  TryRemoveFinalizer c [ClusterRoleBindingsCleanupFinalizer]

/-- Deletion.CleanupCluster (deletion.go lines 49-99): the ordered
finalizer-gated deletion pipeline.  Returns the trace of stage calls and
the final outcome. -/
def CleanupCluster (env : DeletionEnv) (c : Cluster) :
    List Ev × Except GoError Cluster :=
  match env.cleanupConstraints c with
  | .error e => ([(Stage.constraints, c.finalizers)], .error e)
  | .ok c1 =>
    match cleanupInClusterResources env c1 with
    | (tr2, .error e) => ((Stage.constraints, c.finalizers) :: tr2, .error e)
    | (tr2, .ok c2) =>
      let tr := (Stage.constraints, c.finalizers) :: tr2
      if HasAnyFinalizer c2 [InClusterLBCleanupFinalizer, InClusterPVCleanupFinalizer] then
        (tr, .ok c2)
      else
        match env.cleanupEtcdBackupConfigs c2 with
        | .error e => (tr ++ [(Stage.etcdBackup, c2.finalizers)], .error e)
        | .ok c3 =>
          match env.cleanupNodes c3 with
          | .error e =>
            (tr ++ [(Stage.etcdBackup, c2.finalizers), (Stage.nodeCleanup, c3.finalizers)], .error e)
          | .ok c4 =>
            let c5 := cleanupClusterRoleBindings c4
            let tr5 := tr ++ [(Stage.etcdBackup, c2.finalizers),
              (Stage.nodeCleanup, c3.finalizers), (Stage.crbCleanup, c4.finalizers)]
            if HasFinalizer c5 NodeDeletionFinalizer then
              (tr5, .ok c5)
            else
              if HasOnlyFinalizer c5 CredentialsSecretsCleanupFinalizer then
                match env.cleanUpCredentialsSecrets c5 with
                | .error e => (tr5 ++ [(Stage.credentials, c5.finalizers)], .error e)
                | .ok c6 => (tr5 ++ [(Stage.credentials, c5.finalizers)], .ok c6)
              else
                (tr5, .ok c5)

/-! ## Azure cloud provider (pkg/provider/cloud/azure/provider.go) -/

/-- An Azure SDK error: either an autorest.DetailedError carrying an HTTP
status code, or some other error. -/
inductive AzureErr
  | detailed (statusCode : Nat)
  | other (msg : String)
deriving DecidableEq, Repr

/-- The six cleanup stages of Azure.CleanUpCloudProvider, in source
order (lines 125-222): security group, route table, subnet, vnet,
availability set, resource group. -/
inductive AzStage
  | securityGroup
  | routeTable
  | subnet
  | vnet
  | availabilitySet
  | resourceGroup
deriving DecidableEq, Repr

/-- The finalizer guarding each Azure cleanup stage. -/
def azStageFinalizer : AzStage → String
  | .securityGroup => FinalizerSecurityGroup
  | .routeTable => FinalizerRouteTable
  | .subnet => FinalizerSubnet
  | .vnet => FinalizerVNet
  | .availabilitySet => FinalizerAvailabilitySet
  | .resourceGroup => FinalizerResourceGroup

/-- The ordered list of Azure cleanup stages. -/
def azCleanupStages : List AzStage :=
  [.securityGroup, .routeTable, .subnet, .vnet, .availabilitySet, .resourceGroup]

/-- The Azure cleanup finalizer strings, in stage order. -/
def azureCleanupFinalizers : List String := azCleanupStages.map azStageFinalizer

/-- A delete-call outcome is tolerated by CleanUpCloudProvider when the
call succeeded or failed with a DetailedError whose status is 404
(errors.As + StatusCode == http.StatusNotFound). -/
def azTolerated : Option AzureErr → Bool
  | none => true
  | some (.detailed code) => code == 404
  | some (.other _) => false

/-- Error raised by CleanUpCloudProvider: credential/client setup failed,
or a delete call failed with a non-tolerated error at some stage
(mirrors the fmt.Errorf wrapping per stage). -/
inductive AzCleanupErr
  | setup (e : GoError)
  | deleteFailed (st : AzStage) (e : AzureErr)
deriving DecidableEq, Repr

/-- Environment for the Azure provider: outcomes of credential/client
setup and of the per-stage remote delete calls (deleteSecurityGroup,
deleteRouteTable, deleteSubnet, deleteVNet, deleteAvailabilitySet,
deleteResourceGroup), each invoked on the cluster's cloud spec. -/
structure AzCleanupEnv where
  setupErr : Option GoError
  delete : AzStage → CloudSpec → Option AzureErr

/-- One guarded block of Azure.CleanUpCloudProvider, iterated over the
stages in source order: if the stage's finalizer is present, call the
remote delete; tolerate success or a 404 DetailedError and remove the
finalizer via the updater callback; abort with the wrapped error (and
the unchanged cluster) on any other failure. -/
def azCleanupGo (env : AzCleanupEnv) : Cluster → List AzStage →
    Option Cluster × Option AzCleanupErr
  | c, [] => (some c, none)
  | c, st :: rest =>
    if HasFinalizer c (azStageFinalizer st) then
      match env.delete st c.cloud with
      | none => azCleanupGo env (RemoveFinalizer c (azStageFinalizer st)) rest
      | some e =>
        if azTolerated (some e) then
          azCleanupGo env (RemoveFinalizer c (azStageFinalizer st)) rest
        else
          (some c, some (.deleteFailed st e))
    else
      azCleanupGo env c rest

/-- Azure.CleanUpCloudProvider (provider.go lines 111-225): set up
credentials and clients, then run the six 404-tolerant, finalizer-gated
cleanup stages in order. -/
def CleanUpCloudProvider (env : AzCleanupEnv) (c : Cluster) :
    Option Cluster × Option AzCleanupErr :=
  match env.setupErr with
  | some e => (none, some (.setup e))
  | none => azCleanupGo env c azCleanupStages

/-- The infrastructure pieces reconciled by Azure.reconcileCluster, in
source order (lines 250-299). -/
inductive AzPiece
  | resourceGroup
  | vnet
  | subnet
  | routeTable
  | securityGroup
  | availabilitySet
deriving DecidableEq, Repr

/-- The ordered list of reconciled pieces. -/
def azPieces : List AzPiece :=
  [.resourceGroup, .vnet, .subnet, .routeTable, .securityGroup, .availabilitySet]

/-- The cloud-spec field consulted by each piece's emptiness guard. -/
def pieceField (az : AzureCloudSpec) : AzPiece → String
  | .resourceGroup => az.resourceGroup
  | .vnet => az.vnetName
  | .subnet => az.subnetName
  | .routeTable => az.routeTableName
  | .securityGroup => az.securityGroup
  | .availabilitySet => az.availabilitySet

/-- Environment for Azure.reconcileCluster: outcomes of credential/client
setup and of the per-piece reconcile routines (reconcileResourceGroup,
reconcileVNet, reconcileSubnet, reconcileRouteTable,
reconcileSecurityGroup, reconcileAvailabilitySet), each of which either
fails or returns the cluster updated through the updater callback. -/
structure AzReconcileEnv where
  setupErr : Option GoError
  reconcilePiece : AzPiece → Cluster → Except GoError Cluster

/-- Whether Azure.reconcileCluster attempts a piece in the current state:
forced, or the corresponding spec field is empty; the availability set is
additionally gated on AssignAvailabilitySet being nil or true. -/
def pieceAttempted (force : Bool) (az : AzureCloudSpec) : AzPiece → Bool
  | .availabilitySet =>
    (force || pieceField az .availabilitySet == "") && az.assignAvailabilitySet.getD true
  | p => force || pieceField az p == ""

/-- The AssignAvailabilitySet gate of the availability-set block: nil or
true (reads true when the Azure sub-spec is absent). -/
def assignCond (c : Cluster) : Bool :=
  match c.cloud.azure with
  | some az => az.assignAvailabilitySet.getD true
  | none => true

/-- The guarded per-piece blocks of Azure.reconcileCluster, iterated in
source order; each trace entry records the piece and the cluster state at
the moment it was attempted.  Dereferencing a nil Azure sub-spec (which
would panic in Go) is modelled as an error. -/
def azReconcileGo (env : AzReconcileEnv) (force : Bool) :
    Cluster → List AzPiece → List (AzPiece × Cluster) × Except GoError Cluster
  | c, [] => ([], .ok c)
  | c, p :: rest =>
    match c.cloud.azure with
    | none => ([], .error "no Azure cloud spec found")
    | some az =>
      if pieceAttempted force az p then
        match env.reconcilePiece p c with
        | .error e => ([(p, c)], .error e)
        | .ok c' =>
          ((p, c) :: (azReconcileGo env force c' rest).1,
            (azReconcileGo env force c' rest).2)
      else
        azReconcileGo env force c rest

/-- Azure.reconcileCluster (provider.go lines 235-302): set up
credentials and clients, then run the guarded per-piece reconciliation in
order.  The setTags argument is threaded to the per-piece routines (part
of the environment here) and does not affect control flow in this
function. -/
def reconcileCluster (env : AzReconcileEnv) (force : Bool) (c : Cluster) :
    List (AzPiece × Cluster) × Except GoError Cluster :=
  match env.setupErr with
  | some e => ([], .error e)
  | none => azReconcileGo env force c azPieces

/-- Azure.InitializeCloudProvider (provider.go lines 227-229):
reconcileCluster with force = false. -/
def InitializeCloudProvider (env : AzReconcileEnv) (c : Cluster) :
    List (AzPiece × Cluster) × Except GoError Cluster :=
  reconcileCluster env false c

/-- Azure.ReconcileCluster (provider.go lines 231-233): reconcileCluster
with force = true. -/
def ReconcileCluster (env : AzReconcileEnv) (c : Cluster) :
    List (AzPiece × Cluster) × Except GoError Cluster :=
  reconcileCluster env true c

/-- Azure.ValidateCloudSpecUpdate (provider.go lines 453-492): reject
changes to immutable fields unless the old value was empty. -/
def ValidateCloudSpecUpdate (oldSpec newSpec : CloudSpec) : Option GoError :=
  match oldSpec.azure, newSpec.azure with
  | none, _ => some "'azure' spec is empty"
  | _, none => some "'azure' spec is empty"
  | some o, some n =>
    if o.resourceGroup ≠ "" && o.resourceGroup ≠ n.resourceGroup then
      some "updating Azure resource group is not supported"
    else if o.vnetResourceGroup ≠ "" && o.vnetResourceGroup ≠ n.vnetResourceGroup then
      some "updating Azure vnet resource group is not supported"
    else if o.vnetName ≠ "" && o.vnetName ≠ n.vnetName then
      some "updating Azure vnet name is not supported"
    else if o.subnetName ≠ "" && o.subnetName ≠ n.subnetName then
      some "updating Azure subnet name is not supported"
    else if o.routeTableName ≠ "" && o.routeTableName ≠ n.routeTableName then
      some "updating Azure route table name is not supported"
    else if o.securityGroup ≠ "" && o.securityGroup ≠ n.securityGroup then
      some "updating Azure security group is not supported"
    else if o.availabilitySet ≠ "" && o.availabilitySet ≠ n.availabilitySet then
      some "updating Azure availability set is not supported"
    else
      none

/-! ### AddICMPRulesIfRequired (provider.go lines 385-451) -/

/-- A security group rule; only its name drives the control flow of
AddICMPRulesIfRequired (rule payloads are opaque remote data). -/
structure SecurityRule where
  name : Option String := none
deriving DecidableEq, Repr

/-- An Azure network security group: name, tags, and an optional rule
list (SecurityRules is a nilable pointer in the SDK). -/
structure SecurityGroup where
  sgName : Option String := none
  tags : List (String × String) := []
  securityRules : Option (List SecurityRule) := none
deriving DecidableEq, Repr

def denyAllTCPSecGroupRuleName : String := "deny_all_tcp"

def denyAllUDPSecGroupRuleName : String := "deny_all_udp"

def allowAllICMPSecGroupRuleName : String := "icmp_by_allow_all"

/-- Modelled from the spec: tcpDenyAllRule (the rule-building helpers are
not among the sources; only the rule name is observable here). -/
def tcpDenyAllRule : SecurityRule := { name := some denyAllTCPSecGroupRuleName }

/-- Modelled from the spec: udpDenyAllRule. -/
def udpDenyAllRule : SecurityRule := { name := some denyAllUDPSecGroupRuleName }

/-- Modelled from the spec: icmpAllowAllRule. -/
def icmpAllowAllRule : SecurityRule := { name := some allowAllICMPSecGroupRuleName }

/-- Modelled from the spec: hasOwnershipTag — the security group carries
this system's ownership tag, i.e. its tag under the clusterTagKey
("cluster") names this cluster. -/
def hasOwnershipTag (tags : List (String × String)) (c : Cluster) : Bool :=
  tags.any (fun t => t.1 == "cluster" && t.2 == c.name)

/-- Environment for AddICMPRulesIfRequired: credential resolution, the
security group read, and the batched CreateOrUpdate write. -/
structure IcmpEnv where
  credErr : Option GoError
  getSecurityGroup : AzureCloudSpec → Except GoError SecurityGroup
  createOrUpdate : AzureCloudSpec → SecurityGroup → Option GoError

/-- The baseline rules missing from a rule list, in the order the source
appends them (deny-all-TCP, deny-all-UDP, allow-all-ICMP). -/
def missingBaselineRules (rules : List SecurityRule) : List SecurityRule :=
  (if !(rules.any (fun r => r.name == some denyAllTCPSecGroupRuleName)) then
    [tcpDenyAllRule] else []) ++
  (if !(rules.any (fun r => r.name == some denyAllUDPSecGroupRuleName)) then
    [udpDenyAllRule] else []) ++
  (if !(rules.any (fun r => r.name == some allowAllICMPSecGroupRuleName)) then
    [icmpAllowAllRule] else [])

/-- Azure.AddICMPRulesIfRequired (provider.go lines 385-451): read the
security group, skip groups not owned by this system, compute the missing
baseline rules, and issue at most one batched CreateOrUpdate appending
all of them.  Returns the list of CreateOrUpdate calls issued (each with
the security group pushed) and the error outcome.  A nil SecurityRules
slice with missing rules would dereference a nil pointer in Go; this is
modelled as an error. -/
def AddICMPRulesIfRequired (env : IcmpEnv) (c : Cluster) :
    List SecurityGroup × Option GoError :=
  match env.credErr with
  | some e => ([], some e)
  | none =>
    match c.cloud.azure with
    | none => ([], some "no Azure cloud spec found")
    | some az =>
      if az.securityGroup == "" then
        ([], none)
      else
        match env.getSecurityGroup az with
        | .error e => ([], some ("failed to get security group: " ++ e))
        | .ok sg =>
          if !hasOwnershipTag sg.tags c then
            ([], none)
          else
            let rules := sg.securityRules.getD []
            let newSecurityRules := missingBaselineRules rules
            if newSecurityRules.length > 0 then
              match sg.securityRules with
              | none => ([], some "panic: nil SecurityRules")
              | some existingRules =>
                let sg' := { sg with securityRules := some (existingRules ++ newSecurityRules) }
                ([sg'],
                  match env.createOrUpdate az sg' with
                  | none => none
                  | some e => some ("failed to add new rules to security group: " ++ e))
            else
              ([], none)

/-! ## Cluster controller (package kubernetes, Reconciler) -/

/-- Trace events for the cluster controller: whether the inner reconcile
function (Reconciler.reconcile, which performs cloud-provider and
child-object reconciliation or hands off to the deletion pipeline) was
invoked. -/
inductive KEv
  | innerReconcile
deriving DecidableEq, Repr

/-- Environment for Reconciler.Reconcile: the cluster read, the outcome
of the basic status defaulting, the concurrency admission check
(controllerutil.ClusterAvailableForReconciling, whose counting logic
lives outside these sources), whether the generic wrapper skips the
cluster entirely, and the inner reconcile outcome. -/
structure KCtrlEnv where
  getCluster : Except KubeErr Cluster
  statusDefaultErr : Option GoError
  available : Bool
  availableErr : Option GoError
  skipWrapper : Bool
  innerReconcile : Cluster → Option RResult × Option GoError

/-- Modelled from the spec: kubermaticv1helper.ClusterReconcileWrapper —
skip entirely if the cluster is paused/not owned by this worker,
otherwise invoke the inner function and let its explicit result and error
flow through (the success-condition bookkeeping does not alter them). -/
def ClusterReconcileWrapper (skip : Bool)
    (inner : Unit → List KEv × (Option RResult × Option GoError)) :
    List KEv × (Option RResult × Option GoError) :=
  if skip then ([], (none, none)) else inner ()

/-- Reconciler.Reconcile for the cluster controller (part_009 lines
208-270): fetch the cluster, stamp basic status, bail out until a
control-plane version is set, then run the wrapped inner function, which
first applies the concurrency admission check and returns a 10-second
requeue without reconciling when the cluster is not available. -/
def ClusterCtrlReconcile (env : KCtrlEnv) : List KEv × (RResult × Option GoError) :=
  match env.getCluster with
  | .error .notFound => ([], ({}, none))
  | .error (.other e) => ([], ({}, some e))
  | .ok cluster =>
    match env.statusDefaultErr with
    | some e => ([], ({}, some e))
    | none =>
      if cluster.status.controlPlaneVersion == "" then
        ([], ({}, none))
      else
        match ClusterReconcileWrapper env.skipWrapper (fun _ =>
          if !env.available || env.availableErr.isSome then
            ([], (some { requeueAfter := 10 }, env.availableErr))
          else
            let (r, e) := env.innerReconcile cluster
            ([KEv.innerReconcile], (r, e))) with
        | (tr, (resOpt, err)) => (tr, (resOpt.getD {}, err))

/-- Reconciler.updateCluster (part_009 lines 318-334): deep-copy, apply
the modify function, skip the patch when nothing changed, reject any
mutation that touches status, and otherwise issue the merge patch.
Returns whether a patch was issued and the error outcome (the seed API
patch itself is modelled as succeeding). -/
def updateCluster (modify : Cluster → Cluster) (cluster : Cluster) :
    Bool × Option GoError :=
  let oldCluster := cluster
  let cluster := modify cluster
  if cluster = oldCluster then
    (false, none)
  else if cluster.status ≠ oldCluster.status then
    (false, some "updateCluster must not change cluster status")
  else
    (true, none)

/-! ## Addon controller (package addon, Reconciler) -/

/-- kubermaticv1.Addon: name, referenced cluster, finalizers, deletion
timestamp, the ResourcesCreated condition and the ensure label. -/
structure Addon where
  addonName : String := ""
  clusterName : String := ""
  finalizers : List String := []
  deletionTimestamp : Option Nat := none
  resourcesCreated : Bool := false
  ensureLabel : Bool := false
deriving DecidableEq, Repr

/-- The addon cleanup finalizer (part_008 line 67). -/
def cleanupFinalizerName : String := "cleanup-manifests"

/-- Trace events of the addon controller. -/
inductive AEv
  | requiredResourcesCheck
  | cleanupManifests
  | ensureInstalled
  | removedAddonFinalizer (a : Addon)
deriving DecidableEq, Repr

/-- Modelled from the spec: TryRemoveFinalizer on an Addon (the
kuberneteshelper package is not among the sources): remove the finalizer
and persist via an atomic read-modify-write, modelled as succeeding. -/
def removeAddonFinalizer (a : Addon) : Addon :=
  { a with finalizers := a.finalizers.filter (fun g => g ≠ cleanupFinalizerName) }

/-- Environment for the addon controller: the addon and cluster reads,
whether the generic wrapper skips, the required-resource-types check
(which may request a bounded requeue), the manifest deletion against the
tenant cluster and the manifest apply. -/
structure AddonEnv where
  getAddon : Except KubeErr Addon
  getCluster : String → Except KubeErr Cluster
  skipWrapper : Bool
  ensureRequiredResourceTypesExist : Addon → Cluster → Except GoError (Option RResult)
  cleanupManifests : Addon → Cluster → Option GoError
  ensureIsInstalled : Addon → Cluster → Option GoError
  addonEnforceInterval : Nat

/-- Reconciler.reconcile for addons (part_008 lines 239-279): requeue
while the apiserver is down, check required resource types, then either
delete manifests and drop the cleanup finalizer (deletion case), skip
fully-deployed unlabeled addons, or install the manifests. -/
def addonInnerReconcile (env : AddonEnv) (addon : Addon) (cluster : Cluster) :
    List AEv × (Option RResult × Option GoError) :=
  if !(cluster.status.apiserverUp) then
    ([], (some { requeueAfter := 10 }, none))
  else
    match env.ensureRequiredResourceTypesExist addon cluster with
    | .error e =>
      ([AEv.requiredResourcesCheck],
        (none, some ("failed to check if all required resources exist: " ++ e)))
    | .ok (some r) => ([AEv.requiredResourcesCheck], (some r, none))
    | .ok none =>
      if addon.deletionTimestamp.isSome then
        match env.cleanupManifests addon cluster with
        | some e =>
          ([AEv.requiredResourcesCheck, AEv.cleanupManifests],
            (none, some ("failed to delete manifests from cluster: " ++ e)))
        | none =>
          let a := removeAddonFinalizer addon
          ([AEv.requiredResourcesCheck, AEv.cleanupManifests, AEv.removedAddonFinalizer a],
            (none, none))
      else if addon.resourcesCreated && !addon.ensureLabel then
        ([AEv.requiredResourcesCheck], (none, none))
      else
        match env.ensureIsInstalled addon cluster with
        | some e =>
          ([AEv.requiredResourcesCheck, AEv.ensureInstalled],
            (none, some ("failed to deploy the addon manifests into the cluster: " ++ e)))
        | none =>
          ([AEv.requiredResourcesCheck, AEv.ensureInstalled], (none, none))

/-- Reconciler.Reconcile for addons (part_008 lines 175-237): fetch the
addon; fetch its cluster and, when the cluster is gone (not-found),
remove the addon's cleanup finalizer and return success; otherwise bail
out until the cluster has a control-plane version, run the wrapped inner
reconcile, and default a nil result (applying the enforce interval). -/
def AddonReconcile (env : AddonEnv) : List AEv × (RResult × Option GoError) :=
  match env.getAddon with
  | .error .notFound => ([], ({}, none))
  | .error (.other e) => ([], ({}, some e))
  | .ok addon =>
    match env.getCluster addon.clusterName with
    | .error (.other e) => ([], ({}, some e))
    | .error .notFound =>
      let a := removeAddonFinalizer addon
      ([AEv.removedAddonFinalizer a], ({}, none))
    | .ok cluster =>
      if cluster.status.controlPlaneVersion == "" then
        ([], ({}, none))
      else
        match (if env.skipWrapper then ([], (none, none))
               else addonInnerReconcile env addon cluster) with
        | (tr, (resOpt, err)) =>
          match resOpt with
          | some r => (tr, (r, err))
          | none =>
            if env.addonEnforceInterval ≠ 0 then
              (tr, ({ requeueAfter := env.addonEnforceInterval * 60 }, err))
            else
              (tr, ({}, err))

/-! ### Concrete fixtures used by witnesses and counterexamples -/

/-- A concrete addon whose referenced cluster is gone, used to exercise
the orphan-addon path. -/
def orphanAddon : KKP.Addon :=
  { addonName := "canal", clusterName := "gone",
    finalizers := [KKP.cleanupFinalizerName] }

/-- A concrete addon-controller environment in which the referenced
cluster read returns not-found. -/
def orphanAddonEnv : KKP.AddonEnv :=
  { getAddon := .ok orphanAddon,
    getCluster := fun _ => .error .notFound,
    skipWrapper := false,
    ensureRequiredResourceTypesExist := fun _ _ => .ok none,
    cleanupManifests := fun _ _ => none,
    ensureIsInstalled := fun _ _ => none,
    addonEnforceInterval := 0 }

/-- A concrete security group that already carries all three baseline
rules and the ownership tag for cluster "c1". -/
def fullSecurityGroup : KKP.SecurityGroup :=
  { sgName := some "kubernetes-c1",
    tags := [("cluster", "c1")],
    securityRules := some [KKP.tcpDenyAllRule, KKP.udpDenyAllRule, KKP.icmpAllowAllRule] }

/-- A concrete ICMP environment returning fullSecurityGroup. -/
def fullIcmpEnv : KKP.IcmpEnv :=
  { credErr := none,
    getSecurityGroup := fun _ => .ok KKP.fullSecurityGroup,
    createOrUpdate := fun _ _ => none }

/-- A concrete cluster whose Azure spec names a security group. -/
def icmpCluster : KKP.Cluster :=
  { name := "c1",
    cloud := { azure := some { securityGroup := "kubernetes-c1" } } }

/-- A concrete Azure cleanup environment in which every delete call fails
with a 404 DetailedError (the remote resources are already gone). -/
def env404 : KKP.AzCleanupEnv :=
  { setupErr := none,
    delete := fun _ _ => some (.detailed 404) }

/-- A concrete cluster carrying the Azure security-group finalizer. -/
def cluster404 : KKP.Cluster :=
  { name := "az1",
    finalizers := [KKP.FinalizerSecurityGroup],
    cloud := { azure := some { resourceGroup := "rg", securityGroup := "sg" } } }

/-- A concrete Azure reconcile environment whose per-piece routines
succeed without modifying the cluster. -/
def idReconcileEnv : KKP.AzReconcileEnv :=
  { setupErr := none,
    reconcilePiece := fun _ c => .ok c }

/-- A fully populated Azure cloud spec. -/
def populatedAzureSpec : KKP.AzureCloudSpec :=
  { resourceGroup := "rg"
    vnetResourceGroup := "vrg"
    vnetName := "vn"
    subnetName := "sn"
    routeTableName := "rt"
    securityGroup := "sg"
    availabilitySet := "as"
    assignAvailabilitySet := some true }

/-- A concrete cluster whose Azure spec fields are all already
populated. -/
def populatedAzureCluster : KKP.Cluster :=
  { name := "azfull",
    cloud := { azure := some KKP.populatedAzureSpec } }

/-- A concrete deletion environment in which the LB and PV cleanups
delete nothing (both resource classes have nothing left to delete) but
load balancers are still reported present by the direct check. -/
def lbsNotGoneEnv : KKP.DeletionEnv :=
  { cleanupConstraints := fun c => .ok c,
    cleanupLBs := fun c => .ok (c, false),
    cleanupVolumes := fun c => .ok (c, false),
    checkIfAllLoadbalancersAreGone := fun _ => .ok false,
    cleanupEtcdBackupConfigs := fun c => .ok c,
    cleanupNodes := fun c => .ok c,
    cleanUpCredentialsSecrets := fun c => .ok c }

/-- A concrete cluster carrying both in-cluster cleanup finalizers. -/
def bothInClusterCluster : KKP.Cluster :=
  { name := "d1",
    finalizers := [KKP.InClusterLBCleanupFinalizer, KKP.InClusterPVCleanupFinalizer] }

/-- A concrete deletion environment whose LB cleanup deletes a load
balancer (so the in-cluster stage stays pending). -/
def lbStillDeletingEnv : KKP.DeletionEnv :=
  { cleanupConstraints := fun c => .ok c,
    cleanupLBs := fun c => .ok (c, true),
    cleanupVolumes := fun c => .ok (c, false),
    checkIfAllLoadbalancersAreGone := fun _ => .ok false,
    cleanupEtcdBackupConfigs := fun c => .ok c,
    cleanupNodes := fun c => .ok c,
    cleanUpCredentialsSecrets := fun c => .ok c }

/-- A concrete cluster whose sole finalizer is the credentials-secrets
cleanup finalizer. -/
def credOnlyCluster : KKP.Cluster :=
  { name := "c9", finalizers := [KKP.CredentialsSecretsCleanupFinalizer] }

/-! ## Theorems -/

/-- Claim C5: for every pair of Azure cloud specs with both Azure
sub-specs non-nil, if the old resource group is non-empty and differs
from the new one, ValidateCloudSpecUpdate returns an error; if the old
resource group is empty and the other guarded fields (VNet resource
group, VNet, subnet, route table, security group, availability set) are
unchanged, it returns no error for any new resource-group value. -/
theorem validateCloudSpecUpdate_resourceGroup_immutable
    (oldSpec newSpec : KKP.CloudSpec) (o n : KKP.AzureCloudSpec)
    (ho : oldSpec.azure = some o) (hn : newSpec.azure = some n) :
    (o.resourceGroup ≠ "" → o.resourceGroup ≠ n.resourceGroup →
      (KKP.ValidateCloudSpecUpdate oldSpec newSpec).isSome = true) ∧
    (o.resourceGroup = "" →
      o.vnetResourceGroup = n.vnetResourceGroup →
      o.vnetName = n.vnetName →
      o.subnetName = n.subnetName →
      o.routeTableName = n.routeTableName →
      o.securityGroup = n.securityGroup →
      o.availabilitySet = n.availabilitySet →
      KKP.ValidateCloudSpecUpdate oldSpec newSpec = none) := by
  unfold KKP.ValidateCloudSpecUpdate
  rw [ho, hn]
  constructor
  · intro h1 h2
    simp [h1, h2]
  · intro h1 h2 h3 h4 h5 h6 h7
    simp [h1, h2, h3, h4, h5, h6, h7]

/-- Witness for claim C5 at a concrete pair of specs. -/
theorem validateCloudSpecUpdate_resourceGroup_immutable_witness :
    (KKP.ValidateCloudSpecUpdate
      { azure := some { resourceGroup := "rg-a" } }
      { azure := some { resourceGroup := "rg-b" } }).isSome = true ∧
    KKP.ValidateCloudSpecUpdate
      { azure := some { resourceGroup := "" } }
      { azure := some { resourceGroup := "rg-b" } } = none := by
  refine ⟨?_, ?_⟩
  · exact (validateCloudSpecUpdate_resourceGroup_immutable _ _
      { resourceGroup := "rg-a" } { resourceGroup := "rg-b" } rfl rfl).1
      (by decide) (by decide)
  · exact (validateCloudSpecUpdate_resourceGroup_immutable _ _
      { resourceGroup := "" } { resourceGroup := "rg-b" } rfl rfl).2
      rfl rfl rfl rfl rfl rfl rfl

/-- Claim C7: a modify function that changes the Status sub-object makes
updateCluster return an error without issuing a patch, and a patch is
issued only when the modify function changes the object without touching
Status. -/
theorem updateCluster_rejects_status_mutation
    (modify : KKP.Cluster → KKP.Cluster) (c : KKP.Cluster) :
    ((modify c).status ≠ c.status →
      KKP.updateCluster modify c =
        (false, some "updateCluster must not change cluster status")) ∧
    ((KKP.updateCluster modify c).1 = true →
      modify c ≠ c ∧ (modify c).status = c.status) := by
  constructor
  · intro hst
    have hne : modify c ≠ c := fun h => hst (by rw [h])
    unfold KKP.updateCluster
    simp [hne, hst]
  · intro hpatch
    unfold KKP.updateCluster at hpatch
    by_cases h1 : modify c = c
    · simp [h1] at hpatch
    · by_cases h2 : (modify c).status = c.status
      · exact ⟨h1, h2⟩
      · simp [h1, h2] at hpatch

/-- Witness for claim C7 at a concrete cluster and modify functions. -/
theorem updateCluster_rejects_status_mutation_witness :
    KKP.updateCluster
      (fun c => { c with status := { c.status with namespaceName := "ns" } })
      { name := "c1" } =
      (false, some "updateCluster must not change cluster status") := by
  exact (updateCluster_rejects_status_mutation
    (fun c => { c with status := { c.status with namespaceName := "ns" } })
    { name := "c1" }).1 (by decide)

/-- Claim C6: whenever the cluster controller's reconcile reaches the
inner wrapped function (cluster fetched, status defaulted, control-plane
version set, wrapper not skipping) while the concurrency admission check
reports the cluster as not available, Reconcile returns a result with a
RequeueAfter of 10 seconds and the inner reconcile (and with it any
cloud-provider reconciliation) is not invoked. -/
theorem concurrency_ceiling_requeues_without_reconcile
    (env : KKP.KCtrlEnv) (cluster : KKP.Cluster)
    (hget : env.getCluster = .ok cluster)
    (hstatus : env.statusDefaultErr = none)
    (hver : cluster.status.controlPlaneVersion ≠ "")
    (hskip : env.skipWrapper = false)
    (havail : env.available = false) :
    (KKP.ClusterCtrlReconcile env).2.1 = { requeueAfter := 10 } ∧
    KKP.KEv.innerReconcile ∉ (KKP.ClusterCtrlReconcile env).1 := by
  unfold KKP.ClusterCtrlReconcile KKP.ClusterReconcileWrapper
  rw [hget, hstatus, hskip, havail]
  have hver' : (cluster.status.controlPlaneVersion == "") = false := by
    simpa using hver
  simp [hver']

/-- Witness for claim C6 at a concrete environment. -/
theorem concurrency_ceiling_requeues_without_reconcile_witness :
    (KKP.ClusterCtrlReconcile
      { getCluster := .ok { status := { controlPlaneVersion := "1.22" } },
        statusDefaultErr := none,
        available := false,
        availableErr := none,
        skipWrapper := false,
        innerReconcile := fun _ => (none, none) }).2.1 = { requeueAfter := 10 } := by
  exact (concurrency_ceiling_requeues_without_reconcile
    { getCluster := .ok { status := { controlPlaneVersion := "1.22" } },
      statusDefaultErr := none,
      available := false,
      availableErr := none,
      skipWrapper := false,
      innerReconcile := fun _ => (none, none) }
    { status := { controlPlaneVersion := "1.22" } }
    rfl rfl (by decide) rfl rfl).1

/-- Claim C10: when an addon's referenced cluster no longer exists (the
cluster get returns not-found), the addon reconciler removes the addon's
cleanup finalizer, returns success with an empty result, and never
attempts to delete manifests from the tenant cluster. -/
theorem addon_orphan_removes_finalizer_without_manifest_cleanup
    (env : KKP.AddonEnv) (addon : KKP.Addon)
    (hget : env.getAddon = .ok addon)
    (hcluster : env.getCluster addon.clusterName = .error .notFound) :
    KKP.AddonReconcile env =
      ([KKP.AEv.removedAddonFinalizer (KKP.removeAddonFinalizer addon)], ({}, none)) ∧
    KKP.AEv.cleanupManifests ∉ (KKP.AddonReconcile env).1 ∧
    KKP.cleanupFinalizerName ∉ (KKP.removeAddonFinalizer addon).finalizers := by
  have hmain : KKP.AddonReconcile env =
      ([KKP.AEv.removedAddonFinalizer (KKP.removeAddonFinalizer addon)], ({}, none)) := by
    unfold KKP.AddonReconcile
    simp only [hget, hcluster]
  refine ⟨hmain, ?_, ?_⟩
  · rw [hmain]
    simp
  · unfold KKP.removeAddonFinalizer
    simp

/-- Witness for claim C10 at a concrete environment. -/
theorem addon_orphan_removes_finalizer_without_manifest_cleanup_witness :
    KKP.AddonReconcile KKP.orphanAddonEnv =
      ([KKP.AEv.removedAddonFinalizer (KKP.removeAddonFinalizer KKP.orphanAddon)],
        ({}, none)) := by
  exact (addon_orphan_removes_finalizer_without_manifest_cleanup
    KKP.orphanAddonEnv KKP.orphanAddon rfl rfl).1

/-- After appending the missing baseline rules, all three baseline rule
names are present. -/
theorem missingBaselineRules_complete (rules : List KKP.SecurityRule) :
    ∀ n ∈ [KKP.denyAllTCPSecGroupRuleName, KKP.denyAllUDPSecGroupRuleName,
        KKP.allowAllICMPSecGroupRuleName],
      ((rules ++ KKP.missingBaselineRules rules).any
        (fun r => r.name == some n)) = true := by
  intro n hn
  simp only [List.mem_cons, List.not_mem_nil, or_false] at hn
  unfold KKP.missingBaselineRules
  rcases hn with rfl | rfl | rfl <;>
  cases h1 : rules.any (fun r => r.name == some KKP.denyAllTCPSecGroupRuleName) <;>
  cases h2 : rules.any (fun r => r.name == some KKP.denyAllUDPSecGroupRuleName) <;>
  cases h3 : rules.any (fun r => r.name == some KKP.allowAllICMPSecGroupRuleName) <;>
  simp only [h1, h2, h3, List.any_append, Bool.not_true, Bool.not_false, if_true, if_false,
    ite_true, ite_false, List.any_nil, List.any_cons, Bool.or_false, Bool.false_or,
    Bool.true_or, Bool.or_true] <;>
  rfl

/-- Claim C9: AddICMPRulesIfRequired never mutates a security group that
does not carry this system's ownership tag; when the group is owned and
already contains all three baseline rules it issues zero update calls;
and when rules are missing it appends all of them in one single batched
CreateOrUpdate call, after which all three baseline rule names are
present. -/
theorem addICMPRules_idempotent_batched_ownership
    (env : KKP.IcmpEnv) (c : KKP.Cluster) (az : KKP.AzureCloudSpec)
    (sg : KKP.SecurityGroup)
    (hcred : env.credErr = none)
    (haz : c.cloud.azure = some az)
    (hsgname : az.securityGroup ≠ "")
    (hget : env.getSecurityGroup az = .ok sg) :
    (KKP.hasOwnershipTag sg.tags c = false →
      KKP.AddICMPRulesIfRequired env c = ([], none)) ∧
    (KKP.hasOwnershipTag sg.tags c = true →
      ∀ rules, sg.securityRules = some rules →
        ((rules.any (fun r => r.name == some KKP.denyAllTCPSecGroupRuleName)) = true →
          (rules.any (fun r => r.name == some KKP.denyAllUDPSecGroupRuleName)) = true →
          (rules.any (fun r => r.name == some KKP.allowAllICMPSecGroupRuleName)) = true →
          KKP.AddICMPRulesIfRequired env c = ([], none)) ∧
        (KKP.missingBaselineRules rules ≠ [] →
          (KKP.AddICMPRulesIfRequired env c).1 =
            [{ sg with securityRules := some (rules ++ KKP.missingBaselineRules rules) }] ∧
          ∀ n ∈ [KKP.denyAllTCPSecGroupRuleName, KKP.denyAllUDPSecGroupRuleName,
              KKP.allowAllICMPSecGroupRuleName],
            ((rules ++ KKP.missingBaselineRules rules).any
              (fun r => r.name == some n)) = true)) := by
  have hsgname' : (az.securityGroup == "") = false := by
    simpa using hsgname
  constructor
  · intro hown
    unfold KKP.AddICMPRulesIfRequired
    simp [hcred, haz, hsgname', hget, hown]
  · intro hown rules hrules
    constructor
    · intro ht hu hi
      have hmiss : KKP.missingBaselineRules rules = [] := by
        unfold KKP.missingBaselineRules
        simp [ht, hu, hi]
      unfold KKP.AddICMPRulesIfRequired
      simp [hcred, haz, hsgname', hget, hown, hrules, hmiss]
    · intro hmiss
      refine ⟨?_, missingBaselineRules_complete rules⟩
      have hlen : 0 < (KKP.missingBaselineRules rules).length :=
        List.length_pos.mpr hmiss
      unfold KKP.AddICMPRulesIfRequired
      simp [hcred, haz, hsgname', hget, hown, hrules, hlen]

/-- Witness for claim C9: with all three rules already present, the
invocation issues zero update calls. -/
theorem addICMPRules_idempotent_batched_ownership_witness :
    KKP.AddICMPRulesIfRequired KKP.fullIcmpEnv KKP.icmpCluster = ([], none) := by
  exact (((addICMPRules_idempotent_batched_ownership KKP.fullIcmpEnv KKP.icmpCluster
      _ KKP.fullSecurityGroup rfl rfl (by decide) rfl).2 (by decide)
      [KKP.tcpDenyAllRule, KKP.udpDenyAllRule, KKP.icmpAllowAllRule] rfl).1
    (by decide) (by decide) (by decide))

/-- Membership in the finalizer list after RemoveFinalizer. -/
theorem mem_removeFinalizer (c : KKP.Cluster) (x f : String) :
    f ∈ (KKP.RemoveFinalizer c x).finalizers ↔ (f ∈ c.finalizers ∧ f ≠ x) := by
  simp [KKP.RemoveFinalizer, List.mem_filter]

/-- RemoveFinalizer does not touch the cloud spec. -/
theorem removeFinalizer_cloud (c : KKP.Cluster) (x : String) :
    (KKP.RemoveFinalizer c x).cloud = c.cloud := rfl

/-- HasFinalizer decides membership in the finalizer list. -/
theorem hasFinalizer_iff (c : KKP.Cluster) (f : String) :
    KKP.HasFinalizer c f = true ↔ f ∈ c.finalizers := by
  simp [KKP.HasFinalizer]

/-- When every remote delete call on the given cloud spec is tolerated
(success or 404), the Azure cleanup loop completes with no error and the
final finalizer list is the initial one minus the stage finalizers of the
traversed stage list. -/
theorem azCleanupGo_all_tolerated (env : KKP.AzCleanupEnv) (spec : KKP.CloudSpec)
    (htol : ∀ st, KKP.azTolerated (env.delete st spec) = true) :
    ∀ (l : List KKP.AzStage) (c : KKP.Cluster), c.cloud = spec →
      ∃ c', KKP.azCleanupGo env c l = (some c', none) ∧ c'.cloud = spec ∧
        (∀ f, f ∈ c'.finalizers ↔
          (f ∈ c.finalizers ∧ f ∉ l.map KKP.azStageFinalizer)) := by
  intro l
  induction l with
  | nil =>
    intro c hc
    exact ⟨c, rfl, hc, by simp⟩
  | cons st rest ih =>
    intro c hc
    by_cases hf : KKP.HasFinalizer c (KKP.azStageFinalizer st) = true
    · have htol' := htol st
      rw [← hc] at htol'
      cases henv : env.delete st c.cloud with
      | none =>
        obtain ⟨c', h1, h2, h3⟩ :=
          ih (KKP.RemoveFinalizer c (KKP.azStageFinalizer st)) hc
        refine ⟨c', ?_, h2, ?_⟩
        · simp [KKP.azCleanupGo, hf, henv, h1]
        · intro f
          rw [h3 f, mem_removeFinalizer]
          simp only [List.map_cons, List.mem_cons, not_or]
          constructor
          · rintro ⟨⟨hfc, hne⟩, hrest⟩
            exact ⟨hfc, hne, hrest⟩
          · rintro ⟨hfc, hne, hrest⟩
            exact ⟨⟨hfc, hne⟩, hrest⟩
      | some e =>
        rw [henv] at htol'
        obtain ⟨c', h1, h2, h3⟩ :=
          ih (KKP.RemoveFinalizer c (KKP.azStageFinalizer st)) hc
        refine ⟨c', ?_, h2, ?_⟩
        · simp [KKP.azCleanupGo, hf, henv, htol', h1]
        · intro f
          rw [h3 f, mem_removeFinalizer]
          simp only [List.map_cons, List.mem_cons, not_or]
          constructor
          · rintro ⟨⟨hfc, hne⟩, hrest⟩
            exact ⟨hfc, hne, hrest⟩
          · rintro ⟨hfc, hne, hrest⟩
            exact ⟨⟨hfc, hne⟩, hrest⟩
    · have hf' : KKP.azStageFinalizer st ∉ c.finalizers := by
        intro hmem
        exact hf ((hasFinalizer_iff c _).mpr hmem)
      obtain ⟨c', h1, h2, h3⟩ := ih c hc
      refine ⟨c', ?_, h2, ?_⟩
      · simp [KKP.azCleanupGo, hf, h1]
      · intro f
        rw [h3 f]
        simp only [List.map_cons, List.mem_cons, not_or]
        constructor
        · rintro ⟨hfc, hrest⟩
          refine ⟨hfc, ?_, hrest⟩
          intro heq
          exact hf' (heq ▸ hfc)
        · rintro ⟨hfc, _, hrest⟩
          exact ⟨hfc, hrest⟩

/-- Claim C3: Azure.CleanUpCloudProvider tolerates already-absent remote
resources: when every delete call succeeds or fails with a 404-equivalent
DetailedError, it returns no error, removes every stage finalizer (in
particular FinalizerSecurityGroup) via the updater callback, and keeps
every non-Azure finalizer; and when the security-group delete call fails
with a genuine non-404 provider error, it returns an error and the
cluster's finalizers are left intact. -/
theorem cleanUpCloudProvider_404_tolerant (env : KKP.AzCleanupEnv) (c : KKP.Cluster)
    (hsetup : env.setupErr = none) :
    ((∀ st, KKP.azTolerated (env.delete st c.cloud) = true) →
      ∃ c', KKP.CleanUpCloudProvider env c = (some c', none) ∧
        (∀ st, KKP.azStageFinalizer st ∉ c'.finalizers) ∧
        (∀ f, f ∈ c'.finalizers ↔
          (f ∈ c.finalizers ∧ f ∉ KKP.azureCleanupFinalizers))) ∧
    (∀ e, KKP.HasFinalizer c KKP.FinalizerSecurityGroup = true →
      env.delete .securityGroup c.cloud = some e →
      KKP.azTolerated (some e) = false →
      KKP.CleanUpCloudProvider env c =
        (some c, some (.deleteFailed .securityGroup e))) := by
  constructor
  · intro htol
    obtain ⟨c', h1, _, h3⟩ :=
      azCleanupGo_all_tolerated env c.cloud htol KKP.azCleanupStages c rfl
    refine ⟨c', ?_, ?_, ?_⟩
    · simp [KKP.CleanUpCloudProvider, hsetup, h1]
    · intro st hmem
      have := (h3 _).mp hmem
      refine this.2 ?_
      rcases st <;> simp [KKP.azCleanupStages, KKP.azStageFinalizer]
    · intro f
      rw [h3 f]
      rfl
  · intro e hfsg henv htolf
    simp [KKP.CleanUpCloudProvider, hsetup, KKP.azCleanupStages,
      KKP.azCleanupGo, KKP.azStageFinalizer, hfsg, henv, htolf]

/-- Witness for claim C3: with all remote resources already gone, cleanup
returns no error and the security-group finalizer is removed. -/
theorem cleanUpCloudProvider_404_tolerant_witness :
    (KKP.CleanUpCloudProvider KKP.env404 KKP.cluster404).2 = none ∧
    KKP.FinalizerSecurityGroup ∉
      (((KKP.CleanUpCloudProvider KKP.env404 KKP.cluster404).1.getD {}).finalizers) := by
  obtain ⟨c', h1, h2, _⟩ :=
    (cleanUpCloudProvider_404_tolerant KKP.env404 KKP.cluster404 rfl).1
      (fun st => by cases st <;> rfl)
  rw [h1]
  exact ⟨rfl, h2 .securityGroup⟩

/-- Every trace entry of the Azure per-piece reconcile loop was attempted
under its guard: the recorded cluster state has an Azure sub-spec for
which pieceAttempted holds. -/
theorem azReconcileGo_trace_guard (env : KKP.AzReconcileEnv) (force : Bool) :
    ∀ (l : List KKP.AzPiece) (c : KKP.Cluster) (p : KKP.AzPiece) (st : KKP.Cluster),
      (p, st) ∈ (KKP.azReconcileGo env force c l).1 →
      ∃ az', st.cloud.azure = some az' ∧ KKP.pieceAttempted force az' p = true := by
  intro l
  induction l with
  | nil =>
    intro c p st hmem
    simp [KKP.azReconcileGo] at hmem
  | cons q rest ih =>
    intro c p st hmem
    rw [KKP.azReconcileGo] at hmem
    cases haz : c.cloud.azure with
    | none =>
      simp only [haz] at hmem
      simp at hmem
    | some az =>
      simp only [haz] at hmem
      by_cases hatt : KKP.pieceAttempted force az q = true
      · rw [if_pos hatt] at hmem
        cases henv : env.reconcilePiece q c with
        | error e =>
          simp only [henv] at hmem
          simp at hmem
          obtain ⟨rfl, rfl⟩ := hmem
          exact ⟨az, haz, hatt⟩
        | ok c2 =>
          simp only [henv] at hmem
          simp at hmem
          rcases hmem with ⟨rfl, rfl⟩ | hmem
          · exact ⟨az, haz, hatt⟩
          · exact ih c2 p st hmem
      · rw [if_neg hatt] at hmem
        exact ih c p st hmem

/-- When forced, the Azure per-piece reconcile loop attempts every piece
of the traversed list other than the (separately gated) availability set,
provided it completes without error. -/
theorem azReconcileGo_force_complete (env : KKP.AzReconcileEnv) :
    ∀ (l : List KKP.AzPiece) (c c' : KKP.Cluster),
      (KKP.azReconcileGo env true c l).2 = .ok c' →
      ∀ p ∈ l, p ≠ .availabilitySet →
        ∃ st, (p, st) ∈ (KKP.azReconcileGo env true c l).1 := by
  intro l
  induction l with
  | nil =>
    intro c c' _ p hp _
    simp at hp
  | cons q rest ih =>
    intro c c' hres p hp hpneq
    rw [KKP.azReconcileGo] at hres
    cases haz : c.cloud.azure with
    | none =>
      simp only [haz] at hres
      simp at hres
    | some az =>
      simp only [haz] at hres
      by_cases hatt : KKP.pieceAttempted true az q = true
      · rw [if_pos hatt] at hres
        cases henv : env.reconcilePiece q c with
        | error e =>
          simp only [henv] at hres
          simp at hres
        | ok c2 =>
          simp only [henv] at hres
          rcases List.mem_cons.mp hp with rfl | hp'
          · exact ⟨c, by simp [KKP.azReconcileGo, haz, hatt, henv]⟩
          · obtain ⟨st, hst⟩ := ih c2 c' hres p hp' hpneq
            exact ⟨st, by simp [KKP.azReconcileGo, haz, hatt, henv, hst]⟩
      · have hq : q = .availabilitySet := by
          cases q <;> first
          | rfl
          | exact absurd (by simp [KKP.pieceAttempted]) hatt
        rw [if_neg hatt] at hres
        rcases List.mem_cons.mp hp with rfl | hp'
        · exact absurd hq hpneq
        · obtain ⟨st, hst⟩ := ih c c' hres p hp' hpneq
          exact ⟨st, by simp [KKP.azReconcileGo, haz, hatt, hst]⟩

/-- When forced and the per-piece routines preserve the availability-set
gate, the loop also attempts the availability set whenever the gate held
at entry, provided it completes without error. -/
theorem azReconcileGo_force_availability (env : KKP.AzReconcileEnv)
    (hpres : ∀ q c₁ c₂, env.reconcilePiece q c₁ = .ok c₂ →
      KKP.assignCond c₂ = KKP.assignCond c₁) :
    ∀ (l : List KKP.AzPiece) (c c' : KKP.Cluster),
      (KKP.azReconcileGo env true c l).2 = .ok c' →
      KKP.AzPiece.availabilitySet ∈ l →
      KKP.assignCond c = true →
      ∃ st, (KKP.AzPiece.availabilitySet, st) ∈ (KKP.azReconcileGo env true c l).1 := by
  intro l
  induction l with
  | nil =>
    intro c c' _ hmem _
    simp at hmem
  | cons q rest ih =>
    intro c c' hres hmem hcond
    rw [KKP.azReconcileGo] at hres
    cases haz : c.cloud.azure with
    | none =>
      simp only [haz] at hres
      simp at hres
    | some az =>
      simp only [haz] at hres
      have hcond' : az.assignAvailabilitySet.getD true = true := by
        unfold KKP.assignCond at hcond
        rw [haz] at hcond
        exact hcond
      by_cases hq : q = KKP.AzPiece.availabilitySet
      · subst hq
        have hatt : KKP.pieceAttempted true az .availabilitySet = true := by
          simp [KKP.pieceAttempted, hcond']
        rw [if_pos hatt] at hres
        cases henv : env.reconcilePiece .availabilitySet c with
        | error e =>
          simp only [henv] at hres
          simp at hres
        | ok c2 =>
          exact ⟨c, by simp [KKP.azReconcileGo, haz, hatt, henv]⟩
      · have hatt : KKP.pieceAttempted true az q = true := by
          cases q <;> first
          | exact absurd rfl hq
          | simp [KKP.pieceAttempted]
        rw [if_pos hatt] at hres
        cases henv : env.reconcilePiece q c with
        | error e =>
          simp only [henv] at hres
          simp at hres
        | ok c2 =>
          simp only [henv] at hres
          have hmem' : KKP.AzPiece.availabilitySet ∈ rest := by
            rcases List.mem_cons.mp hmem with h | h
            · exact absurd h.symm hq
            · exact h
          have hcond2 : KKP.assignCond c2 = true := by
            rw [hpres q c c2 henv]
            unfold KKP.assignCond
            rw [haz]
            exact hcond'
          obtain ⟨st, hst⟩ := ih c2 c' hres hmem' hcond2
          exact ⟨st, by simp [KKP.azReconcileGo, haz, hatt, henv, hst]⟩

/-- Claim C4, amended: it is InitializeCloudProvider (force = false) that
attempts each infrastructure piece only when the corresponding cloud-spec
field is empty (the availability set additionally requiring
AssignAvailabilitySet nil-or-true), whereas ReconcileCluster
(force = true) attempts every piece regardless of the spec fields — the
resource group, VNet, subnet, route table and security group
unconditionally, and the availability set whenever its gate holds. -/
theorem initialize_conditional_reconcile_forced (env : KKP.AzReconcileEnv) (c : KKP.Cluster) :
    (∀ p st, (p, st) ∈ (KKP.InitializeCloudProvider env c).1 →
      ∃ az', st.cloud.azure = some az' ∧ KKP.pieceField az' p = "" ∧
        (p = .availabilitySet → az'.assignAvailabilitySet.getD true = true)) ∧
    (∀ c', (KKP.ReconcileCluster env c).2 = .ok c' →
      (∀ p, p ≠ KKP.AzPiece.availabilitySet →
        ∃ st, (p, st) ∈ (KKP.ReconcileCluster env c).1) ∧
      ((∀ q c₁ c₂, env.reconcilePiece q c₁ = .ok c₂ →
          KKP.assignCond c₂ = KKP.assignCond c₁) →
        KKP.assignCond c = true →
        ∃ st, (KKP.AzPiece.availabilitySet, st) ∈ (KKP.ReconcileCluster env c).1)) := by
  constructor
  · intro p st hmem
    unfold KKP.InitializeCloudProvider KKP.reconcileCluster at hmem
    cases hsetup : env.setupErr with
    | some e =>
      rw [hsetup] at hmem
      simp at hmem
    | none =>
      rw [hsetup] at hmem
      obtain ⟨az', h1, h2⟩ := azReconcileGo_trace_guard env false _ c p st hmem
      refine ⟨az', h1, ?_, ?_⟩
      · cases p <;>
        · simp [KKP.pieceAttempted] at h2
          first
          | exact h2
          | exact h2.1
      · intro hp
        subst hp
        simp [KKP.pieceAttempted] at h2
        exact h2.2
  · intro c' hok
    have hsetup : env.setupErr = none := by
      cases hsetup : env.setupErr with
      | some e =>
        unfold KKP.ReconcileCluster KKP.reconcileCluster at hok
        rw [hsetup] at hok
        simp at hok
      | none => rfl
    unfold KKP.ReconcileCluster KKP.reconcileCluster at hok ⊢
    rw [hsetup] at hok ⊢
    constructor
    · intro p hpneq
      refine azReconcileGo_force_complete env KKP.azPieces c c' hok p ?_ hpneq
      cases p <;> simp [KKP.azPieces]
    · intro hpres hcond
      exact azReconcileGo_force_availability env hpres KKP.azPieces c c' hok
        (by simp [KKP.azPieces]) hcond

/-- Counterexample to claim C4 as stated: on a cluster whose spec fields
are all populated, ReconcileCluster still attempts the resource-group
piece (its field is non-empty), and InitializeCloudProvider attempts no
piece at all — the claim has the two entry points swapped. -/
theorem initialize_reconcile_force_counterexample :
    ((KKP.populatedAzureCluster.cloud.azure.getD {}).resourceGroup ≠ "") ∧
    (KKP.AzPiece.resourceGroup, KKP.populatedAzureCluster) ∈
      (KKP.ReconcileCluster KKP.idReconcileEnv KKP.populatedAzureCluster).1 ∧
    (KKP.InitializeCloudProvider KKP.idReconcileEnv KKP.populatedAzureCluster).1 = [] := by
  refine ⟨by decide, ?_, ?_⟩
  · decide
  · decide

/-- Witness for the amended claim C4 at the concrete populated cluster:
ReconcileCluster attempts the resource-group piece there. -/
theorem initialize_conditional_reconcile_forced_witness :
    ∃ st, (KKP.AzPiece.resourceGroup, st) ∈
      (KKP.ReconcileCluster KKP.idReconcileEnv KKP.populatedAzureCluster).1 := by
  exact ((initialize_conditional_reconcile_forced KKP.idReconcileEnv
    KKP.populatedAzureCluster).2 KKP.populatedAzureCluster rfl).1
    KKP.AzPiece.resourceGroup (by decide)

/-- Membership in the finalizer list after TryRemoveFinalizer. -/
theorem mem_tryRemoveFinalizer (c : KKP.Cluster) (fs : List String) (f : String) :
    f ∈ (KKP.TryRemoveFinalizer c fs).finalizers ↔ (f ∈ c.finalizers ∧ f ∉ fs) := by
  simp [KKP.TryRemoveFinalizer, List.mem_filter]

/-- Claim C8, amended: in the in-cluster resource cleanup stage, with
both in-cluster finalizers present and both cleanups succeeding, the two
finalizers are not removed independently: in any pass where at least one
resource was deleted neither finalizer is removed; when nothing was
deleted but load balancers remain, neither is removed either (even if the
persistent volumes are already confirmed empty); and when nothing was
deleted and the direct check confirms zero load balancers remain, both
finalizers are removed together in one single TryRemoveFinalizer call. -/
theorem inCluster_finalizers_removed_together (env : KKP.DeletionEnv)
    (c c1 c2 : KKP.Cluster) (b1 b2 : Bool)
    (hLB : KKP.HasFinalizer c KKP.InClusterLBCleanupFinalizer = true)
    (hPV : KKP.HasFinalizer c KKP.InClusterPVCleanupFinalizer = true)
    (h1 : env.cleanupLBs c = .ok (c1, b1))
    (h2 : env.cleanupVolumes c1 = .ok (c2, b2)) :
    ((b1 || b2) = true →
      KKP.cleanupInClusterResources env c =
        ([(KKP.Stage.lbCleanup, c.finalizers), (KKP.Stage.pvCleanup, c1.finalizers)],
          .ok c2)) ∧
    ((b1 || b2) = false →
      env.checkIfAllLoadbalancersAreGone c2 = .ok false →
      KKP.cleanupInClusterResources env c =
        ([(KKP.Stage.lbCleanup, c.finalizers), (KKP.Stage.pvCleanup, c1.finalizers),
          (KKP.Stage.lbGoneCheck, c2.finalizers)], .ok c2)) ∧
    ((b1 || b2) = false →
      env.checkIfAllLoadbalancersAreGone c2 = .ok true →
      KKP.cleanupInClusterResources env c =
        ([(KKP.Stage.lbCleanup, c.finalizers), (KKP.Stage.pvCleanup, c1.finalizers),
          (KKP.Stage.lbGoneCheck, c2.finalizers)],
          .ok (KKP.TryRemoveFinalizer c2
            [KKP.InClusterLBCleanupFinalizer, KKP.InClusterPVCleanupFinalizer]))) := by
  refine ⟨?_, ?_, ?_⟩
  · intro hdel
    unfold KKP.cleanupInClusterResources
    simp [hLB, hPV, h1, h2, hdel]
  · intro hdel hgone
    unfold KKP.cleanupInClusterResources
    simp [hLB, hPV, h1, h2, hdel, hgone]
  · intro hdel hgone
    unfold KKP.cleanupInClusterResources
    simp [hLB, hPV, h1, h2, hdel, hgone]

/-- Counterexample to claim C8 as stated: in a pass where the persistent
volume cleanup confirms its resource class empty (it deletes nothing and
returns no error), the PV finalizer is nevertheless not removed, because
its removal is coupled to the load-balancer check — the finalizers are
not removed independently. -/
theorem inCluster_finalizers_independent_counterexample :
    KKP.lbsNotGoneEnv.cleanupVolumes KKP.bothInClusterCluster =
      .ok (KKP.bothInClusterCluster, false) ∧
    KKP.lbsNotGoneEnv.cleanupLBs KKP.bothInClusterCluster =
      .ok (KKP.bothInClusterCluster, false) ∧
    (KKP.cleanupInClusterResources KKP.lbsNotGoneEnv KKP.bothInClusterCluster).2 =
      .ok KKP.bothInClusterCluster ∧
    KKP.HasFinalizer KKP.bothInClusterCluster KKP.InClusterPVCleanupFinalizer = true := by
  exact ⟨rfl, rfl, rfl, rfl⟩

/-- Witness for the amended claim C8: with both cleanups reporting no
deletions and load balancers still present, the pass completes without
removing either finalizer. -/
theorem inCluster_finalizers_removed_together_witness :
    KKP.cleanupInClusterResources KKP.lbsNotGoneEnv KKP.bothInClusterCluster =
      ([(KKP.Stage.lbCleanup, KKP.bothInClusterCluster.finalizers),
        (KKP.Stage.pvCleanup, KKP.bothInClusterCluster.finalizers),
        (KKP.Stage.lbGoneCheck, KKP.bothInClusterCluster.finalizers)],
        .ok KKP.bothInClusterCluster) := by
  exact (inCluster_finalizers_removed_together KKP.lbsNotGoneEnv
    KKP.bothInClusterCluster KKP.bothInClusterCluster KKP.bothInClusterCluster
    false false rfl rfl rfl rfl).2.1 rfl rfl

/-- Every trace event of the in-cluster resource cleanup is one of its
own three stages (LB cleanup, PV cleanup, LB-gone check). -/
theorem cleanupInClusterResources_stages (env : KKP.DeletionEnv) (c : KKP.Cluster) :
    ∀ ev ∈ (KKP.cleanupInClusterResources env c).1,
      ev.1 = KKP.Stage.lbCleanup ∨ ev.1 = KKP.Stage.pvCleanup ∨
        ev.1 = KKP.Stage.lbGoneCheck := by
  intro ev hmem
  unfold KKP.cleanupInClusterResources at hmem
  cases hsl : KKP.HasFinalizer c KKP.InClusterLBCleanupFinalizer with
  | false =>
    cases hsp : KKP.HasFinalizer c KKP.InClusterPVCleanupFinalizer with
    | false =>
      simp [hsl, hsp] at hmem
    | true =>
      cases hv : env.cleanupVolumes c with
      | error e =>
        simp [hsl, hsp, hv] at hmem
        simp [hmem]
      | ok r =>
        obtain ⟨c2, b2⟩ := r
        cases b2 with
        | true =>
          simp [hsl, hsp, hv] at hmem
          simp [hmem]
        | false =>
          cases hgone : env.checkIfAllLoadbalancersAreGone c2 with
          | error e =>
            simp [hsl, hsp, hv, hgone] at hmem
            rcases hmem with rfl | rfl <;> simp
          | ok b =>
            cases b <;>
            · simp [hsl, hsp, hv, hgone] at hmem
              rcases hmem with rfl | rfl <;> simp
  | true =>
    cases hlb : env.cleanupLBs c with
    | error e =>
      simp [hsl, hlb] at hmem
      simp [hmem]
    | ok r =>
      obtain ⟨c1, b1⟩ := r
      cases hsp : KKP.HasFinalizer c KKP.InClusterPVCleanupFinalizer with
      | false =>
        cases b1 with
        | true =>
          simp [hsl, hsp, hlb] at hmem
          simp [hmem]
        | false =>
          cases hgone : env.checkIfAllLoadbalancersAreGone c1 with
          | error e =>
            simp [hsl, hsp, hlb, hgone] at hmem
            rcases hmem with rfl | rfl <;> simp
          | ok b =>
            cases b <;>
            · simp [hsl, hsp, hlb, hgone] at hmem
              rcases hmem with rfl | rfl <;> simp
      | true =>
        cases hv : env.cleanupVolumes c1 with
        | error e =>
          simp [hsl, hsp, hlb, hv] at hmem
          rcases hmem with rfl | rfl <;> simp
        | ok r2 =>
          obtain ⟨c2, b2⟩ := r2
          cases hdel : b1 || b2 with
          | true =>
            simp [hsl, hsp, hlb, hv, hdel] at hmem
            rcases hmem with rfl | rfl <;> simp
          | false =>
            cases hgone : env.checkIfAllLoadbalancersAreGone c2 with
            | error e =>
              simp [hsl, hsp, hlb, hv, hdel, hgone] at hmem
              rcases hmem with rfl | rfl | rfl <;> simp
            | ok b =>
              cases b <;>
              · simp [hsl, hsp, hlb, hv, hdel, hgone] at hmem
                rcases hmem with rfl | rfl | rfl <;> simp

/-- Claim C2: in any deletion pass in which, after the in-cluster
resource cleanup stage, the in-cluster-LB-cleanup or in-cluster-PV-cleanup
finalizer is still present, CleanupCluster returns immediately with that
cluster state and no later stage (etcd-backup-config cleanup, node
deletion, cluster-role-binding cleanup, credentials-secrets cleanup) is
performed in that pass. -/
theorem cleanup_halts_when_incluster_finalizers_remain (env : KKP.DeletionEnv)
    (c c1 c2 : KKP.Cluster) (tr2 : List KKP.Ev)
    (h1 : env.cleanupConstraints c = .ok c1)
    (h2 : KKP.cleanupInClusterResources env c1 = (tr2, .ok c2))
    (h3 : KKP.HasAnyFinalizer c2
      [KKP.InClusterLBCleanupFinalizer, KKP.InClusterPVCleanupFinalizer] = true) :
    KKP.CleanupCluster env c = ((KKP.Stage.constraints, c.finalizers) :: tr2, .ok c2) ∧
    ∀ ev ∈ (KKP.CleanupCluster env c).1,
      ev.1 ≠ KKP.Stage.etcdBackup ∧ ev.1 ≠ KKP.Stage.nodeCleanup ∧
        ev.1 ≠ KKP.Stage.crbCleanup ∧ ev.1 ≠ KKP.Stage.credentials := by
  have hmain : KKP.CleanupCluster env c =
      ((KKP.Stage.constraints, c.finalizers) :: tr2, .ok c2) := by
    unfold KKP.CleanupCluster
    simp only [h1, h2, h3, if_true]
  refine ⟨hmain, ?_⟩
  rw [hmain]
  intro ev hmem
  rcases List.mem_cons.mp hmem with heq | hmem'
  · subst heq
    exact ⟨by simp, by simp, by simp, by simp⟩
  · have := cleanupInClusterResources_stages env c1 ev (by rw [h2] at *; exact hmem')
    rcases this with h | h | h <;> rw [h] <;>
      exact ⟨by simp, by simp, by simp, by simp⟩

/-- Witness for claim C2 at a concrete environment and cluster. -/
theorem cleanup_halts_when_incluster_finalizers_remain_witness :
    KKP.CleanupCluster KKP.lbStillDeletingEnv KKP.bothInClusterCluster =
      ((KKP.Stage.constraints, KKP.bothInClusterCluster.finalizers) ::
        [(KKP.Stage.lbCleanup, KKP.bothInClusterCluster.finalizers),
          (KKP.Stage.pvCleanup, KKP.bothInClusterCluster.finalizers)],
        .ok KKP.bothInClusterCluster) := by
  exact (cleanup_halts_when_incluster_finalizers_remain KKP.lbStillDeletingEnv
    KKP.bothInClusterCluster KKP.bothInClusterCluster KKP.bothInClusterCluster
    [(KKP.Stage.lbCleanup, KKP.bothInClusterCluster.finalizers),
      (KKP.Stage.pvCleanup, KKP.bothInClusterCluster.finalizers)]
    rfl rfl rfl).1

/-- The in-cluster trace never contains a credentials-stage event. -/
theorem cred_not_in_inCluster_trace (env : KKP.DeletionEnv) (c : KKP.Cluster) :
    ∀ fins, (KKP.Stage.credentials, fins) ∉ (KKP.cleanupInClusterResources env c).1 := by
  intro fins hmem
  have := cleanupInClusterResources_stages env c _ hmem
  simp at this

/-- The in-cluster resource cleanup preserves membership of any finalizer
other than the two in-cluster finalizers, provided the LB and PV cleanup
routines do so. -/
theorem cleanupInClusterResources_preserves (env : KKP.DeletionEnv) (f : String)
    (hf1 : f ≠ KKP.InClusterLBCleanupFinalizer)
    (hf2 : f ≠ KKP.InClusterPVCleanupFinalizer)
    (hl : ∀ a b d, env.cleanupLBs a = .ok (b, d) →
      (f ∈ b.finalizers ↔ f ∈ a.finalizers))
    (hv : ∀ a b d, env.cleanupVolumes a = .ok (b, d) →
      (f ∈ b.finalizers ↔ f ∈ a.finalizers)) :
    ∀ c c', (KKP.cleanupInClusterResources env c).2 = .ok c' →
      (f ∈ c'.finalizers ↔ f ∈ c.finalizers) := by
  intro c c' hres
  unfold KKP.cleanupInClusterResources at hres
  cases hsl : KKP.HasFinalizer c KKP.InClusterLBCleanupFinalizer with
  | false =>
    cases hsp : KKP.HasFinalizer c KKP.InClusterPVCleanupFinalizer with
    | false =>
      simp [hsl, hsp] at hres
      rw [hres]
    | true =>
      cases hvc : env.cleanupVolumes c with
      | error e => simp [hsl, hsp, hvc] at hres
      | ok r =>
        obtain ⟨c2, b2⟩ := r
        cases b2 with
        | true =>
          simp [hsl, hsp, hvc] at hres
          rw [← hres]
          exact hv c c2 true hvc
        | false =>
          cases hgone : env.checkIfAllLoadbalancersAreGone c2 with
          | error e => simp [hsl, hsp, hvc, hgone] at hres
          | ok b =>
            cases b with
            | false =>
              simp [hsl, hsp, hvc, hgone] at hres
              rw [← hres]
              exact hv c c2 false hvc
            | true =>
              simp [hsl, hsp, hvc, hgone] at hres
              rw [← hres, mem_tryRemoveFinalizer]
              rw [hv c c2 false hvc]
              simp [hf1, hf2]
  | true =>
    cases hlb : env.cleanupLBs c with
    | error e => simp [hsl, hlb] at hres
    | ok r =>
      obtain ⟨c1, b1⟩ := r
      have hiff1 : f ∈ c1.finalizers ↔ f ∈ c.finalizers := hl c c1 b1 hlb
      cases hsp : KKP.HasFinalizer c KKP.InClusterPVCleanupFinalizer with
      | false =>
        cases b1 with
        | true =>
          simp [hsl, hsp, hlb] at hres
          rw [← hres]
          exact hiff1
        | false =>
          cases hgone : env.checkIfAllLoadbalancersAreGone c1 with
          | error e => simp [hsl, hsp, hlb, hgone] at hres
          | ok b =>
            cases b with
            | false =>
              simp [hsl, hsp, hlb, hgone] at hres
              rw [← hres]
              exact hiff1
            | true =>
              simp [hsl, hsp, hlb, hgone] at hres
              rw [← hres, mem_tryRemoveFinalizer, hiff1]
              simp [hf1, hf2]
      | true =>
        cases hvc : env.cleanupVolumes c1 with
        | error e => simp [hsl, hsp, hlb, hvc] at hres
        | ok r2 =>
          obtain ⟨c2, b2⟩ := r2
          have hiff2 : f ∈ c2.finalizers ↔ f ∈ c.finalizers :=
            (hv c1 c2 b2 hvc).trans hiff1
          cases hdel : b1 || b2 with
          | true =>
            simp [hsl, hsp, hlb, hvc, hdel] at hres
            rw [← hres]
            exact hiff2
          | false =>
            cases hgone : env.checkIfAllLoadbalancersAreGone c2 with
            | error e => simp [hsl, hsp, hlb, hvc, hdel, hgone] at hres
            | ok b =>
              cases b with
              | false =>
                simp [hsl, hsp, hlb, hvc, hdel, hgone] at hres
                rw [← hres]
                exact hiff2
              | true =>
                simp [hsl, hsp, hlb, hvc, hdel, hgone] at hres
                rw [← hres, mem_tryRemoveFinalizer, hiff2]
                simp [hf1, hf2]

/-- Claim C1: the credentials-secrets cleanup is attempted only when the
credentials-secrets-cleanup finalizer is the sole finalizer on the
Cluster at the moment of the check, and in every pass in which it is not
invoked (and the opaque sub-cleanups preserve that finalizer, which only
the credentials cleanup itself is meant to remove) the finalizer's
membership on the cluster is unchanged by the pass. -/
theorem credentials_cleanup_only_when_sole (env : KKP.DeletionEnv) (c : KKP.Cluster)
    (hc : ∀ a b, env.cleanupConstraints a = .ok b →
      (KKP.CredentialsSecretsCleanupFinalizer ∈ b.finalizers ↔
        KKP.CredentialsSecretsCleanupFinalizer ∈ a.finalizers))
    (hl : ∀ a b d, env.cleanupLBs a = .ok (b, d) →
      (KKP.CredentialsSecretsCleanupFinalizer ∈ b.finalizers ↔
        KKP.CredentialsSecretsCleanupFinalizer ∈ a.finalizers))
    (hv : ∀ a b d, env.cleanupVolumes a = .ok (b, d) →
      (KKP.CredentialsSecretsCleanupFinalizer ∈ b.finalizers ↔
        KKP.CredentialsSecretsCleanupFinalizer ∈ a.finalizers))
    (he : ∀ a b, env.cleanupEtcdBackupConfigs a = .ok b →
      (KKP.CredentialsSecretsCleanupFinalizer ∈ b.finalizers ↔
        KKP.CredentialsSecretsCleanupFinalizer ∈ a.finalizers))
    (hn : ∀ a b, env.cleanupNodes a = .ok b →
      (KKP.CredentialsSecretsCleanupFinalizer ∈ b.finalizers ↔
        KKP.CredentialsSecretsCleanupFinalizer ∈ a.finalizers)) :
    (∀ fins, (KKP.Stage.credentials, fins) ∈ (KKP.CleanupCluster env c).1 →
      KKP.CredentialsSecretsCleanupFinalizer ∈ fins ∧
        ∀ g ∈ fins, g = KKP.CredentialsSecretsCleanupFinalizer) ∧
    (∀ c', (KKP.CleanupCluster env c).2 = .ok c' →
      (∀ fins, (KKP.Stage.credentials, fins) ∉ (KKP.CleanupCluster env c).1) →
      (KKP.CredentialsSecretsCleanupFinalizer ∈ c'.finalizers ↔
        KKP.CredentialsSecretsCleanupFinalizer ∈ c.finalizers)) := by
  cases hcon : env.cleanupConstraints c with
  | error e =>
    constructor
    · intro fins hmem
      unfold KKP.CleanupCluster at hmem
      simp [hcon] at hmem
    · intro c' hres _
      unfold KKP.CleanupCluster at hres
      simp [hcon] at hres
  | ok c1 =>
    have hiff1 := hc c c1 hcon
    rcases hic : KKP.cleanupInClusterResources env c1 with ⟨tr2, res⟩
    have hcred_tr2 : ∀ fins, (KKP.Stage.credentials, fins) ∉ tr2 := by
      intro fins hmem
      exact cred_not_in_inCluster_trace env c1 fins (by rw [hic]; exact hmem)
    cases res with
    | error e =>
      constructor
      · intro fins hmem
        unfold KKP.CleanupCluster at hmem
        simp only [hcon, hic] at hmem
        rcases List.mem_cons.mp hmem with heq | hmem'
        · simp at heq
        · exact absurd hmem' (hcred_tr2 fins)
      · intro c' hres _
        unfold KKP.CleanupCluster at hres
        simp [hcon, hic] at hres
    | ok c2 =>
      have hiff2 : KKP.CredentialsSecretsCleanupFinalizer ∈ c2.finalizers ↔
          KKP.CredentialsSecretsCleanupFinalizer ∈ c1.finalizers :=
        cleanupInClusterResources_preserves env _ (by decide) (by decide) hl hv c1 c2
          (by rw [hic])
      by_cases hany : KKP.HasAnyFinalizer c2
          [KKP.InClusterLBCleanupFinalizer, KKP.InClusterPVCleanupFinalizer] = true
      · constructor
        · intro fins hmem
          unfold KKP.CleanupCluster at hmem
          simp only [hcon, hic, hany, if_true] at hmem
          rcases List.mem_cons.mp hmem with heq | hmem'
          · simp at heq
          · exact absurd hmem' (hcred_tr2 fins)
        · intro c' hres _
          unfold KKP.CleanupCluster at hres
          simp only [hcon, hic, hany, if_true] at hres
          simp at hres
          rw [← hres]
          exact hiff2.trans hiff1
      · have hany' : KKP.HasAnyFinalizer c2
            [KKP.InClusterLBCleanupFinalizer, KKP.InClusterPVCleanupFinalizer] = false := by
          simpa using hany
        cases hetc : env.cleanupEtcdBackupConfigs c2 with
        | error e =>
          constructor
          · intro fins hmem
            unfold KKP.CleanupCluster at hmem
            simp only [hcon, hic, hany', Bool.false_eq_true, if_false, hetc] at hmem
            rcases List.mem_cons.mp hmem with heq | hmem'
            · simp at heq
            · rcases List.mem_append.mp hmem' with h | h
              · exact absurd h (hcred_tr2 fins)
              · simp at h
          · intro c' hres _
            unfold KKP.CleanupCluster at hres
            simp [hcon, hic, hany', hetc] at hres
        | ok c3 =>
          have hiff3 : KKP.CredentialsSecretsCleanupFinalizer ∈ c3.finalizers ↔
              KKP.CredentialsSecretsCleanupFinalizer ∈ c.finalizers :=
            (he c2 c3 hetc).trans (hiff2.trans hiff1)
          cases hnod : env.cleanupNodes c3 with
          | error e =>
            constructor
            · intro fins hmem
              unfold KKP.CleanupCluster at hmem
              simp only [hcon, hic, hany', Bool.false_eq_true, if_false, hetc, hnod] at hmem
              rcases List.mem_cons.mp hmem with heq | hmem'
              · simp at heq
              · rcases List.mem_append.mp hmem' with h | h
                · exact absurd h (hcred_tr2 fins)
                · simp at h
            · intro c' hres _
              unfold KKP.CleanupCluster at hres
              simp [hcon, hic, hany', hetc, hnod] at hres
          | ok c4 =>
            have hiff4 : KKP.CredentialsSecretsCleanupFinalizer ∈ c4.finalizers ↔
                KKP.CredentialsSecretsCleanupFinalizer ∈ c.finalizers :=
              (hn c3 c4 hnod).trans hiff3
            have hiff5 : KKP.CredentialsSecretsCleanupFinalizer ∈
                (KKP.cleanupClusterRoleBindings c4).finalizers ↔
                KKP.CredentialsSecretsCleanupFinalizer ∈ c.finalizers := by
              unfold KKP.cleanupClusterRoleBindings
              rw [mem_tryRemoveFinalizer]
              constructor
              · rintro ⟨h, _⟩
                exact hiff4.mp h
              · intro h
                exact ⟨hiff4.mpr h, by decide⟩
            by_cases hnf : KKP.HasFinalizer (KKP.cleanupClusterRoleBindings c4)
                KKP.NodeDeletionFinalizer = true
            · constructor
              · intro fins hmem
                unfold KKP.CleanupCluster at hmem
                simp only [hcon, hic, hany', Bool.false_eq_true, if_false, hetc, hnod,
                  hnf, if_true] at hmem
                rcases List.mem_cons.mp hmem with heq | hmem'
                · simp at heq
                · rcases List.mem_append.mp hmem' with h | h
                  · exact absurd h (hcred_tr2 fins)
                  · simp at h
              · intro c' hres _
                unfold KKP.CleanupCluster at hres
                simp only [hcon, hic, hany', Bool.false_eq_true, if_false, hetc, hnod,
                  hnf, if_true] at hres
                simp at hres
                rw [← hres]
                exact hiff5
            · have hnf' : KKP.HasFinalizer (KKP.cleanupClusterRoleBindings c4)
                  KKP.NodeDeletionFinalizer = false := by
                simpa using hnf
              by_cases honly : KKP.HasOnlyFinalizer (KKP.cleanupClusterRoleBindings c4)
                  KKP.CredentialsSecretsCleanupFinalizer = true
              · have hsole : KKP.CredentialsSecretsCleanupFinalizer ∈
                    (KKP.cleanupClusterRoleBindings c4).finalizers ∧
                    ∀ g ∈ (KKP.cleanupClusterRoleBindings c4).finalizers,
                      g = KKP.CredentialsSecretsCleanupFinalizer := by
                  unfold KKP.HasOnlyFinalizer at honly
                  simp only [Bool.and_eq_true, List.all_eq_true, beq_iff_eq] at honly
                  refine ⟨?_, honly.2⟩
                  have := honly.1
                  simpa using this
                have hcredmem : ∀ res2, env.cleanUpCredentialsSecrets
                      (KKP.cleanupClusterRoleBindings c4) = res2 →
                    (KKP.Stage.credentials,
                      (KKP.cleanupClusterRoleBindings c4).finalizers) ∈
                      (KKP.CleanupCluster env c).1 := by
                  intro res2 hcs
                  unfold KKP.CleanupCluster
                  cases res2 with
                  | error e2 =>
                    simp only [hcon, hic, hany', Bool.false_eq_true, if_false, hetc, hnod,
                      hnf', honly, if_true, hcs]
                    simp
                  | ok c6 =>
                    simp only [hcon, hic, hany', Bool.false_eq_true, if_false, hetc, hnod,
                      hnf', honly, if_true, hcs]
                    simp
                constructor
                · intro fins hmem
                  unfold KKP.CleanupCluster at hmem
                  cases hcs : env.cleanUpCredentialsSecrets
                      (KKP.cleanupClusterRoleBindings c4) with
                  | error e2 =>
                    simp only [hcon, hic, hany', Bool.false_eq_true, if_false, hetc, hnod,
                      hnf', honly, if_true, hcs] at hmem
                    rcases List.mem_cons.mp hmem with heq | hmem'
                    · simp at heq
                    · rcases List.mem_append.mp hmem' with h | h
                      · rcases List.mem_append.mp h with h2 | h2
                        · exact absurd h2 (hcred_tr2 fins)
                        · simp at h2
                      · simp at h
                        rw [h]
                        exact hsole
                  | ok c6 =>
                    simp only [hcon, hic, hany', Bool.false_eq_true, if_false, hetc, hnod,
                      hnf', honly, if_true, hcs] at hmem
                    rcases List.mem_cons.mp hmem with heq | hmem'
                    · simp at heq
                    · rcases List.mem_append.mp hmem' with h | h
                      · rcases List.mem_append.mp h with h2 | h2
                        · exact absurd h2 (hcred_tr2 fins)
                        · simp at h2
                      · simp at h
                        rw [h]
                        exact hsole
                · intro c' _ hnone
                  exact absurd (hcredmem _ rfl)
                    (hnone (KKP.cleanupClusterRoleBindings c4).finalizers)
              · have honly' : KKP.HasOnlyFinalizer (KKP.cleanupClusterRoleBindings c4)
                    KKP.CredentialsSecretsCleanupFinalizer = false := by
                  simpa using honly
                constructor
                · intro fins hmem
                  unfold KKP.CleanupCluster at hmem
                  simp only [hcon, hic, hany', Bool.false_eq_true, if_false, hetc, hnod,
                    hnf', honly', if_true] at hmem
                  rcases List.mem_cons.mp hmem with heq | hmem'
                  · simp at heq
                  · rcases List.mem_append.mp hmem' with h | h
                    · exact absurd h (hcred_tr2 fins)
                    · simp at h
                · intro c' hres _
                  unfold KKP.CleanupCluster at hres
                  simp only [hcon, hic, hany', Bool.false_eq_true, if_false, hetc, hnod,
                    hnf', honly', if_true] at hres
                  simp at hres
                  rw [← hres]
                  exact hiff5

/-- Witness for claim C1: on a cluster whose sole finalizer is the
credentials finalizer, the credentials stage is reached and its recorded
finalizer list indeed contains only that finalizer. -/
theorem credentials_cleanup_only_when_sole_witness :
    KKP.CredentialsSecretsCleanupFinalizer ∈ [KKP.CredentialsSecretsCleanupFinalizer] ∧
    ∀ g ∈ [KKP.CredentialsSecretsCleanupFinalizer],
      g = KKP.CredentialsSecretsCleanupFinalizer := by
  refine (credentials_cleanup_only_when_sole KKP.lbsNotGoneEnv KKP.credOnlyCluster
    ?_ ?_ ?_ ?_ ?_).1 [KKP.CredentialsSecretsCleanupFinalizer] (by decide)
  · intro a b h
    cases h
    exact Iff.rfl
  · intro a b d h
    cases h
    exact Iff.rfl
  · intro a b d h
    cases h
    exact Iff.rfl
  · intro a b h
    cases h
    exact Iff.rfl
  · intro a b h
    cases h
    exact Iff.rfl

end KKP
